import Mathlib

/-!
# AI-Governance persistence and aggregation layer: a shallow embedding

This file embeds the core persistence/aggregation layer of the
AI-Governance backend (the `JSONStorage` document store, the
`NDJSONStorage` append-only event log, and the `RiskScoringService`
risk scorer) as executable Lean definitions, and proves theorems about
them.

Modelling conventions:

* A parsed JSON value is `JVal`; a record (Python `dict` produced by
  `json.loads`) is an association list with unique keys, `Record`.
* Machine `float` arithmetic of the scorer is embedded over `ℚ`.
* File-system effects are made explicit: each mutating storage
  operation returns, alongside its functional result, the list of
  low-level write operations (`WriteOp`) it performs on its target
  file, in order.  A temp-file-write followed by a rename is the
  atomic-save discipline; an in-place truncating write is not.
-/

/-- A parsed JSON value, as produced by Python's `json.loads`.  In
every collection the claims touch, array-valued attributes (e.g.
`jurisdictions`, `external_data_sources`) are arrays of strings, and
nested objects do not occur; the value universe reflects that. -/
inductive JVal where
  | null
  | bool (b : Bool)
  | num (q : ℚ)
  | str (s : String)
  | arr (elems : List String)
deriving DecidableEq, Repr

/-- A record: a Python `dict` holding JSON-serializable attributes.
Keys of a Python dict are unique; insertion order is preserved. -/
abbrev Record := List (String × JVal)

/-- First value bound to key `k`, if any (Python `r[k]` presence). -/
def lookupAttr : Record → String → Option JVal
  | [], _ => none
  | p :: ps, k => if p.1 = k then some p.2 else lookupAttr ps k

/-- Python `r.get(k)`: the bound value, or `None` when the key is
absent.  JSON `null` and Python `None` coincide after `json.loads`,
so the absent case is modelled by `JVal.null`. -/
def pyGet (r : Record) (k : String) : JVal :=
  (lookupAttr r k).getD JVal.null

/-- Python truthiness of a JSON value (`if latest.get(...)`). -/
def truthy : JVal → Bool
  | JVal.null => false
  | JVal.bool b => b
  | JVal.num q => decide (q ≠ 0)
  | JVal.str s => decide (s ≠ "")
  | JVal.arr l => decide (l ≠ [])

/-- Numeric coercion of a JSON value, as used by Python arithmetic
(`100 - score`): numbers are themselves, booleans coerce to 0/1.
CPython raises `TypeError` on the remaining cases; they are mapped to
0 here and excluded by hypotheses wherever a theorem depends on the
numeric branch. -/
def numVal : JVal → ℚ
  | JVal.num q => q
  | JVal.bool b => if b then 1 else 0
  | _ => 0

/-- Python `len` of a list-valued attribute
(`len(model.get("jurisdictions", []))`); the default for an absent
attribute is the empty list.  A present non-list value would make
CPython's `len` raise and is outside the embedding. -/
def listVal : JVal → List String
  | JVal.arr l => l
  | _ => []

/-- A low-level write operation performed on a storage file.  The
content of a file is modelled at the parsed level: the record list a
faithful reader would recover from its bytes. -/
inductive WriteOp where
  /-- Serialize `content` to a fresh temporary file in the target's
  directory (`tempfile.NamedTemporaryFile(dir=dir_path)` + dump). -/
  | tempWrite (content : List Record)
  /-- Atomically rename the temporary file over the target
  (`os.replace(tmp_path, filepath)`). -/
  | renameTempOverTarget
  /-- Open the target with mode `"w"` (truncating it in place) and
  write `content` to it. -/
  | truncWrite (content : List Record)
  /-- Open the target with mode `"a"` and append one serialized
  record line. -/
  | appendRecord (r : Record)
deriving DecidableEq, Repr

namespace JSONStorage

/-- `JSONStorage.save_json`: dump the array to a temp file in the same
directory, then `os.replace` it over the target.  Returns the write
trace. -/
def save_json (data : List Record) : List WriteOp :=
  [WriteOp.tempWrite data, WriteOp.renameTempOverTarget]

/-- `JSONStorage.find_by_id`: linear scan, first record whose
`id_field` equals the (string) `id_value`. -/
def find_by_id (data : List Record) (id_field id_value : String) :
    Option Record :=
  data.find?
    (fun record => decide (pyGet record id_field = JVal.str id_value))

/-- `JSONStorage.create`: load, append the record, save.  (The source
performs no duplicate-identifier check; the route layer calls
`exists` first.)  Returns the new collection and the write trace. -/
def create (data : List Record) (record : Record) :
    List Record × List WriteOp :=
  (data ++ [record], save_json (data ++ [record]))

/-- Python `dict.__setitem__` on an ordered dict modelled as an
association list with unique keys: an existing key is overwritten in
place, a new key is appended. -/
def setAttr (r : Record) (k : String) (v : JVal) : Record :=
  if (lookupAttr r k).isSome then
    r.map (fun p => if p.1 = k then (k, v) else p)
  else
    r ++ [(k, v)]

/-- Python `data[i].update(updates)`: merge each binding of `updates`,
in order, into the record. -/
def dictUpdate (r : Record) (updates : Record) : Record :=
  updates.foldl (fun acc p => setAttr acc p.1 p.2) r

/-- Helper for `update_by_id`: merge `updates` into the first record
matching `id_field = id_value`, or `none` when no record matches. -/
def updateFirst (id_field id_value : String) (updates : Record) :
    List Record → Option (List Record)
  | [] => none
  | r :: rest =>
    if pyGet r id_field = JVal.str id_value then
      some (dictUpdate r updates :: rest)
    else
      (updateFirst id_field id_value updates rest).map (r :: ·)

/-- `JSONStorage.update_by_id`: scan for the first record whose
`id_field` equals `id_value`; merge `updates` into it, save, and
return `true`; return `false` (and write nothing) when no record
matches.  Returns `(result, new collection, write trace)`. -/
def update_by_id (data : List Record) (id_field id_value : String)
    (updates : Record) : Bool × List Record × List WriteOp :=
  match updateFirst id_field id_value updates data with
  | none => (false, data, [])
  | some data' => (true, data', save_json data')

/-- `JSONStorage.delete_by_id`: drop every record whose `id_field`
equals `id_value`; save and return `true` when the collection shrank,
else return `false` and write nothing. -/
def delete_by_id (data : List Record) (id_field id_value : String) :
    Bool × List Record × List WriteOp :=
  let kept := data.filter
    (fun r => decide (pyGet r id_field ≠ JVal.str id_value))
  if kept.length < data.length then
    (true, kept, save_json kept)
  else
    (false, data, [])

/-- `JSONStorage.exists`: whether `find_by_id` finds a record.  (The
source name `exists` is a Lean keyword.) -/
def existsRecord (data : List Record) (id_field id_value : String) :
    Bool :=
  (find_by_id data id_field id_value).isSome

end JSONStorage

namespace NDJSONStorage

/-- `NDJSONStorage.append`: open the file in append mode and write one
serialized record line.  Returns the new file content and the write
trace. -/
def append (content : List Record) (record : Record) :
    List Record × List WriteOp :=
  (content ++ [record], [WriteOp.appendRecord record])

/-- `NDJSONStorage.read_all`, at the parsed level: the records an
NDJSON reader recovers from the file, in file order.  (Blank and
unparseable lines are dropped below this level of modelling; `content`
is already the list of successfully parsed records.) -/
def read_all (content : List Record) : List Record :=
  content

/-- `NDJSONStorage.filter_records`: keep the records on which every
key-value filter matches (Python `r.get(k) == v`), then apply the
optional custom filter function. -/
def filter_records (content : List Record)
    (filter_fn : Option (Record → Bool))
    (filters : List (String × JVal)) : List Record :=
  let records := read_all content
  let records :=
    if filters.isEmpty then records
    else records.filter
      (fun r => filters.all (fun p => decide (pyGet r p.1 = p.2)))
  match filter_fn with
  | none => records
  | some f => records.filter f

/-- The sort key of `records.sort(key=lambda x: x.get(sort_by, ''),
reverse=True)`: the string value of the sort attribute, or the empty
string when the attribute is absent.  A present non-string value
(including JSON null, which Python reads as `None`) would make
CPython raise on comparison with the string default; sort keys are
strings in every log the claims touch. -/
def sortKey (sort_by : String) (r : Record) : String :=
  match lookupAttr r sort_by with
  | some (JVal.str s) => s
  | _ => ""

/-- CPython `<=` on lists of characters: lexicographic on Unicode
code points. -/
def lexLe : List Char → List Char → Bool
  | [], _ => true
  | _ :: _, [] => false
  | a :: as, b :: bs =>
    if a.val.toNat < b.val.toNat then true
    else if b.val.toNat < a.val.toNat then false
    else lexLe as bs

/-- CPython `<=` on strings: lexicographic comparison of the code
point sequences. -/
def pyStrLe (a b : String) : Bool :=
  lexLe a.data b.data

/-- Insert `x` into a descending-sorted list: `x` goes in front of the
first element whose key is at most the key of `x`.  Helper realizing
the stable descending sort of CPython `list.sort(reverse=True)`. -/
def insertDesc (key : Record → String) (x : Record) :
    List Record → List Record
  | [] => [x]
  | y :: ys =>
    if pyStrLe (key y) (key x) then x :: y :: ys
    else y :: insertDesc key x ys

/-- CPython `list.sort(key=..., reverse=True)`: the stable descending
sort — `a` precedes `b` exactly when `key a > key b`, or the keys are
equal and `a` precedes `b` in the input.  `reverse=True` flips each
comparison while keeping the sort stable; it is not a reversal of the
ascending result.  Realized as a stable insertion sort, which computes
the same (unique) stable ordering as the Timsort of the source. -/
def sortDesc (key : Record → String) (l : List Record) : List Record :=
  l.foldr (insertDesc key) []

/-- `NDJSONStorage.get_latest_for_model`: filter on `model_id`, return
`None` when nothing matched, else the head of the descending sort. -/
def get_latest_for_model (content : List Record) (model_id : String)
    (sort_by : String := "timestamp") : Option Record :=
  let records := filter_records content none
    [("model_id", JVal.str model_id)]
  if records.isEmpty then none
  else (sortDesc (sortKey sort_by) records).head?

/-- `NDJSONStorage.get_all_for_model`: all records whose `model_id`
attribute equals the given id, sorted descending by `sort_by` with
stable ties. -/
def get_all_for_model (content : List Record) (model_id : String)
    (sort_by : String := "timestamp") : List Record :=
  sortDesc (sortKey sort_by)
    (filter_records content none [("model_id", JVal.str model_id)])

/-- `NDJSONStorage.count`: number of records matching the filters. -/
def count (content : List Record) (filters : List (String × JVal)) :
    Nat :=
  (filter_records content none filters).length

/-- `NDJSONStorage.delete_record`: read all records, keep those that
do not match every filter, then open the target with mode `"w"` (an
in-place truncation, not a temp-file-then-rename) and write the kept
records back.  Returns the deleted count, the kept records, and the
write trace. -/
def delete_record (content : List Record)
    (filters : List (String × JVal)) :
    Nat × List Record × List WriteOp :=
  let all_records := read_all content
  let records_to_keep := all_records.filter
    (fun r => !(filters.all (fun p => decide (pyGet r p.1 = p.2))))
  let deleted_count := all_records.length - records_to_keep.length
  (deleted_count, records_to_keep,
    [WriteOp.truncWrite records_to_keep])

end NDJSONStorage

/-- The `RiskLevel` enumeration of `app.models.risk`. -/
inductive RiskLevel where
  | low
  | medium
  | high
  | critical
deriving DecidableEq, Repr

/-- The `.value` string of a `RiskLevel` member. -/
def RiskLevel.value : RiskLevel → String
  | .low => "low"
  | .medium => "medium"
  | .high => "high"
  | .critical => "critical"

/-- The fields of the `RiskAssessment` pydantic model that the scorer
fills in (fields left at their defaults are omitted).  The timestamp
(`datetime.utcnow()` in the source) is threaded in as an argument. -/
structure RiskAssessment where
  model_id : String
  risk_score : ℚ
  risk_level : RiskLevel
  primary_risk_drivers : List String
  business_impact_summary : String
  timestamp : String
deriving DecidableEq, Repr

/-- The data directory: the parsed content of the one document-store
collection and the four event logs the risk scorer touches. -/
structure DataDir where
  models : List Record
  control_evaluations : List Record
  bias : List Record
  explainability : List Record
  drift : List Record
deriving DecidableEq, Repr

/-- A storage operation on a named file of the data directory, as
performed by the scorer through `JSONStorage` and `NDJSONStorage`. -/
inductive StoreOp where
  | readFile (name : String)
  | writeFile (name : String) (content : List Record)
deriving DecidableEq, Repr

/-- Whether a storage operation is a read. -/
def StoreOp.isRead : StoreOp → Bool
  | .readFile _ => true
  | .writeFile _ _ => false

/-- Effect of one storage operation on the data directory: reads leave
it untouched, writes replace the named file. -/
def applyOp (d : DataDir) : StoreOp → DataDir
  | .readFile _ => d
  | .writeFile name c =>
    if name = "models.json" then { d with models := c }
    else if name = "control_evaluations.ndjson" then
      { d with control_evaluations := c }
    else if name = "bias.ndjson" then { d with bias := c }
    else if name = "explainability.ndjson" then
      { d with explainability := c }
    else if name = "drift.ndjson" then { d with drift := c }
    else d

/-- Effect of a sequence of storage operations, in order. -/
def applyOps (d : DataDir) (ops : List StoreOp) : DataDir :=
  ops.foldl applyOp d

/-- Python `str()` of an interpolated JSON value.  Only string and
`None` values are interpolated in the collections the claims touch;
the numeric and list renderings are abbreviated and no theorem
depends on them. -/
def pyStr : JVal → String
  | JVal.str s => s
  | JVal.null => "None"
  | JVal.bool b => if b then "True" else "False"
  | JVal.num q => toString q
  | JVal.arr l => toString l

/-- Python `round` to the nearest integer, ties to even (the rounding
of `round(total_score, 2)` scaled by 100).  The floor is written as
flooring integer division of the numerator by the denominator. -/
def roundHalfEven (q : ℚ) : ℤ :=
  let f : ℤ := q.num.fdiv q.den
  let r : ℚ := q - (f : ℚ)
  if r < 1 / 2 then f
  else if 1 / 2 < r then f + 1
  else if f % 2 = 0 then f
  else f + 1

/-- Python `round(x, 2)`. -/
def round2 (q : ℚ) : ℚ :=
  (roundHalfEven (q * 100) : ℚ) / 100

namespace RiskScoringService

/-- `RiskScoringService._calculate_bias_score`: 30 with no
evaluations; else a fixed score from the latest evaluation, first
matching rule wins. -/
def _calculate_bias_score (bias_evals : List Record) : ℚ :=
  match bias_evals with
  | [] => 30
  | latest :: _ =>
    if pyGet latest "status" = JVal.str "unacceptable" then 90
    else if truthy (pyGet latest "regulatory_concern_flag") then 80
    else if pyGet latest "customer_harm_risk" = JVal.str "high" then 70
    else if pyGet latest "status" = JVal.str "needs_review" then 50
    else if pyGet latest "customer_harm_risk" = JVal.str "medium" then 30
    else 10

/-- `RiskScoringService._calculate_control_score`: 60 with no
evaluations; else `min(100, failure_rate * 100)` where the failure
rate counts failed evaluations plus half of the needs-review ones. -/
def _calculate_control_score (control_evals : List Record) : ℚ :=
  if control_evals.isEmpty then 60
  else
    let total : ℚ := (control_evals.length : ℚ)
    let failed : ℚ := ((control_evals.filter
      (fun c => decide (pyGet c "status" = JVal.str "failed"))).length : ℚ)
    let needs_review : ℚ := ((control_evals.filter
      (fun c => decide (pyGet c "status" = JVal.str "needs_review"))).length : ℚ)
    let failure_rate : ℚ :=
      if 0 < total then (failed + needs_review * 0.5) / total else 1.0
    min 100 (failure_rate * 100)

/-- `RiskScoringService._calculate_explainability_score`: 40 with no
evaluations or when the latest evaluation has no
`explainability_score` (absent or JSON null, both Python `None`);
else `100 - score`. -/
def _calculate_explainability_score
    (explainability_evals : List Record) : ℚ :=
  match explainability_evals with
  | [] => 40
  | latest :: _ =>
    match lookupAttr latest "explainability_score" with
    | none => 40
    | some JVal.null => 40
    | some v => 100 - numVal v

/-- `RiskScoringService._calculate_drift_score`: 20 with no
evaluations; `min(100, breached * 40)` when any evaluation has status
breached; else 5. -/
def _calculate_drift_score (drift_evals : List Record) : ℚ :=
  if drift_evals.isEmpty then 20
  else
    let breached := drift_evals.filter
      (fun d => decide (pyGet d "status" = JVal.str "breached"))
    if !breached.isEmpty then min 100 ((breached.length : ℚ) * 40)
    else 5

/-- `RiskScoringService._calculate_operational_score`: additive
penalties for prod deployment, jurisdiction count, high-stakes use
case and external data sources, capped at 100. -/
def _calculate_operational_score (model : Record) : ℚ :=
  let score : ℚ := 0
  let score :=
    if pyGet model "deployment_environment" = JVal.str "prod" then
      score + 30
    else score
  let jurisdictions := listVal (pyGet model "jurisdictions")
  let score :=
    if jurisdictions.length > 10 then score + 30
    else if jurisdictions.length > 5 then score + 15
    else score
  let high_stakes_cases := ["Pricing", "Underwriting", "Claims"]
  let score :=
    if high_stakes_cases.any
        (fun c => decide (pyGet model "use_case_category" = JVal.str c))
    then score + 20
    else score
  let score :=
    if (listVal (pyGet model "external_data_sources")).length > 2 then
      score + 20
    else score
  min 100 score

/-- The risk-level cutoff chain inlined in `calculate_risk_score`
(source lines 69 to 76): lower-bound-inclusive bands on the
unrounded weighted total. -/
def riskLevelOf (total_score : ℚ) : RiskLevel :=
  if total_score ≥ 80 then RiskLevel.critical
  else if total_score ≥ 60 then RiskLevel.high
  else if total_score ≥ 30 then RiskLevel.medium
  else RiskLevel.low

/-- The risk-driver list built in `calculate_risk_score` (source
lines 78 to 89): one fixed string per component threshold crossed,
in the fixed source order. -/
def riskDrivers (bias_score control_score explainability_score
    drift_score operational_score : ℚ) : List String :=
  (if bias_score ≥ 70 then ["Unfair discrimination concerns"] else [])
    ++ (if control_score ≥ 60 then ["Failed mandatory controls"] else [])
    ++ (if explainability_score ≥ 50 then
          ["Low explainability for customer-facing decisions"] else [])
    ++ (if drift_score ≥ 70 then
          ["Model drift threshold breaches"] else [])
    ++ (if operational_score ≥ 50 then
          ["High-risk operational deployment"] else [])

/-- The business-impact summary built in `calculate_risk_score`
(source lines 91 to 98). -/
def businessImpact (model : Record) (risk_level : RiskLevel) : String :=
  let s := "Risk level " ++ risk_level.value ++ " for "
    ++ pyStr (pyGet model "line_of_business") ++ " "
    ++ pyStr (pyGet model "use_case_category") ++ " model. "
  let s := s ++ "Deployed in "
    ++ toString (listVal (pyGet model "jurisdictions")).length
    ++ " jurisdiction(s). "
  if pyGet model "deployment_environment" = JVal.str "prod" then
    s ++ "Production deployment requires immediate attention for high/critical risks."
  else
    s ++ "Currently in " ++ pyStr (pyGet model "deployment_environment")
      ++ " environment."

/-- `RiskScoringService.calculate_risk_score`: look the model up in
the models collection; return `None` when absent; else load the four
evaluation histories via `get_all_for_model`, compute the five
component scores, the weighted total, level, drivers and summary,
and return the assessment.  Alongside the result, the list of
storage operations performed, in order.  `now` stands for
`datetime.utcnow()`. -/
def calculate_risk_score (d : DataDir) (model_id : String)
    (now : String) : Option RiskAssessment × List StoreOp :=
  match JSONStorage.find_by_id d.models "model_id" model_id with
  | none => (none, [StoreOp.readFile "models.json"])
  | some model =>
    let control_evals :=
      NDJSONStorage.get_all_for_model d.control_evaluations model_id
    let bias_evals := NDJSONStorage.get_all_for_model d.bias model_id
    let explainability_evals :=
      NDJSONStorage.get_all_for_model d.explainability model_id
    let drift_evals := NDJSONStorage.get_all_for_model d.drift model_id
    let bias_score := _calculate_bias_score bias_evals
    let control_score := _calculate_control_score control_evals
    let explainability_score :=
      _calculate_explainability_score explainability_evals
    let drift_score := _calculate_drift_score drift_evals
    let operational_score := _calculate_operational_score model
    let total_score := bias_score * 0.40 + control_score * 0.25
      + explainability_score * 0.20 + drift_score * 0.10
      + operational_score * 0.05
    let risk_level := riskLevelOf total_score
    let risk_drivers := riskDrivers bias_score control_score
      explainability_score drift_score operational_score
    (some {
      model_id := model_id
      risk_score := round2 total_score
      risk_level := risk_level
      primary_risk_drivers :=
        if risk_drivers.isEmpty then ["No significant risks identified"]
        else risk_drivers
      business_impact_summary := businessImpact model risk_level
      timestamp := now },
     [StoreOp.readFile "models.json",
      StoreOp.readFile "control_evaluations.ndjson",
      StoreOp.readFile "bias.ndjson",
      StoreOp.readFile "explainability.ndjson",
      StoreOp.readFile "drift.ndjson"])

end RiskScoringService

namespace NDJSONStorage

theorem lexLe_refl (l : List Char) : lexLe l l = true := by
  induction l with
  | nil => rfl
  | cons a as ih => simp [lexLe, ih]

theorem lexLe_total (a b : List Char) :
    lexLe a b = true ∨ lexLe b a = true := by
  induction a generalizing b with
  | nil => exact Or.inl rfl
  | cons x xs ih =>
    cases b with
    | nil => exact Or.inr rfl
    | cons y ys =>
      rw [lexLe, lexLe]
      rcases Nat.lt_trichotomy x.val.toNat y.val.toNat with h | h | h
      · exact Or.inl (by simp [h])
      · have h2 : ¬ x.val.toNat < y.val.toNat := by omega
        have h3 : ¬ y.val.toNat < x.val.toNat := by omega
        simpa [h2, h3] using ih ys
      · exact Or.inr (by simp [h])

theorem lexLe_trans :
    ∀ (a b c : List Char), lexLe a b = true → lexLe b c = true →
      lexLe a c = true := by
  intro a
  induction a with
  | nil => intro b c _ _; rfl
  | cons x xs ih =>
    intro b c hab hbc
    cases b with
    | nil => simp [lexLe] at hab
    | cons y ys =>
      cases c with
      | nil => simp [lexLe] at hbc
      | cons z zs =>
        rw [lexLe] at hab hbc ⊢
        by_cases hxy : x.val.toNat < y.val.toNat
        · by_cases hyz : y.val.toNat < z.val.toNat
          · simp [show x.val.toNat < z.val.toNat by omega]
          · by_cases hzy : z.val.toNat < y.val.toNat
            · simp [hyz, hzy] at hbc
            · simp [show x.val.toNat < z.val.toNat by omega]
        · by_cases hyx : y.val.toNat < x.val.toNat
          · simp [hxy, hyx] at hab
          · simp [hxy, hyx] at hab
            by_cases hyz : y.val.toNat < z.val.toNat
            · simp [show x.val.toNat < z.val.toNat by omega]
            · by_cases hzy : z.val.toNat < y.val.toNat
              · simp [hyz, hzy] at hbc
              · simp [hyz, hzy] at hbc
                have hxz : ¬ x.val.toNat < z.val.toNat := by omega
                have hzx : ¬ z.val.toNat < x.val.toNat := by omega
                simp [hxz, hzx]
                exact ih ys zs hab hbc

theorem pyStrLe_refl (s : String) : pyStrLe s s = true :=
  lexLe_refl s.data

theorem pyStrLe_total (a b : String) :
    pyStrLe a b = true ∨ pyStrLe b a = true :=
  lexLe_total a.data b.data

theorem pyStrLe_trans {a b c : String} (hab : pyStrLe a b = true)
    (hbc : pyStrLe b c = true) : pyStrLe a c = true :=
  lexLe_trans a.data b.data c.data hab hbc

theorem pyStrLe_empty_right (s : String) (h : pyStrLe s "" = true) :
    s = "" := by
  rcases s with ⟨data⟩
  cases data with
  | nil => rfl
  | cons c cs => simp [pyStrLe, lexLe] at h

theorem sortDesc_cons (key : Record → String) (x : Record)
    (l : List Record) :
    sortDesc key (x :: l) = insertDesc key x (sortDesc key l) :=
  rfl

theorem insertDesc_perm (key : Record → String) (x : Record)
    (l : List Record) : (insertDesc key x l).Perm (x :: l) := by
  induction l with
  | nil => exact List.Perm.refl _
  | cons y ys ih =>
    rw [insertDesc]
    split
    · exact List.Perm.refl _
    · exact (ih.cons y).trans (List.Perm.swap x y ys)

theorem sortDesc_perm (key : Record → String) (l : List Record) :
    (sortDesc key l).Perm l := by
  induction l with
  | nil => exact List.Perm.refl _
  | cons x xs ih =>
    rw [sortDesc_cons]
    exact (insertDesc_perm key x (sortDesc key xs)).trans (ih.cons x)

theorem insertDesc_pairwise (key : Record → String) (x : Record)
    {l : List Record}
    (h : l.Pairwise (fun a b => pyStrLe (key b) (key a) = true)) :
    (insertDesc key x l).Pairwise
      (fun a b => pyStrLe (key b) (key a) = true) := by
  induction l with
  | nil => simp [insertDesc]
  | cons y ys ih =>
    rcases List.pairwise_cons.mp h with ⟨hy, hys⟩
    rw [insertDesc]
    split
    case isTrue hxy =>
      refine List.pairwise_cons.mpr ⟨?_, h⟩
      intro z hz
      rcases List.mem_cons.mp hz with rfl | hz
      · exact hxy
      · exact pyStrLe_trans (hy z hz) hxy
    case isFalse hxy =>
      refine List.pairwise_cons.mpr ⟨?_, ih hys⟩
      intro z hz
      rcases List.mem_cons.mp ((insertDesc_perm key x ys).subset hz) with
        hzx | hz
      · rw [hzx]
        exact (pyStrLe_total (key x) (key y)).resolve_right hxy
      · exact hy z hz

theorem sortDesc_pairwise (key : Record → String) (l : List Record) :
    (sortDesc key l).Pairwise
      (fun a b => pyStrLe (key b) (key a) = true) := by
  induction l with
  | nil => simp [sortDesc]
  | cons x xs ih => exact insertDesc_pairwise key x ih

theorem insertDesc_filter_of_eq (key : Record → String) (x : Record)
    (l : List Record) (k : String) (hx : key x = k) :
    (insertDesc key x l).filter (fun r => decide (key r = k)) =
      x :: l.filter (fun r => decide (key r = k)) := by
  induction l with
  | nil => simp [insertDesc, hx]
  | cons y ys ih =>
    rw [insertDesc]
    split
    case isTrue hxy => simp [List.filter_cons, hx]
    case isFalse hxy =>
      have hky : ¬ key y = k := by
        intro hk
        exact hxy (by rw [hk, hx]; exact pyStrLe_refl k)
      simp [List.filter_cons, hky, hx, ih]

theorem insertDesc_filter_of_ne (key : Record → String) (x : Record)
    (l : List Record) (k : String) (hx : ¬ key x = k) :
    (insertDesc key x l).filter (fun r => decide (key r = k)) =
      l.filter (fun r => decide (key r = k)) := by
  induction l with
  | nil => simp [insertDesc, hx]
  | cons y ys ih =>
    rw [insertDesc]
    split
    · simp [List.filter_cons, hx]
    · simp [List.filter_cons, hx, ih]

theorem sortDesc_filter (key : Record → String) (l : List Record)
    (k : String) :
    (sortDesc key l).filter (fun r => decide (key r = k)) =
      l.filter (fun r => decide (key r = k)) := by
  induction l with
  | nil => rfl
  | cons x xs ih =>
    rw [sortDesc_cons]
    by_cases hx : key x = k
    · rw [insertDesc_filter_of_eq key x _ k hx, ih,
        List.filter_cons_of_pos (by simp [hx])]
    · rw [insertDesc_filter_of_ne key x _ k hx, ih,
        List.filter_cons_of_neg (by simp [hx])]

end NDJSONStorage

/-- C3: for every event log and entity id, `get_all_for_model` returns
exactly the records matching the entity id (a permutation of the
exact-match filter), sorted descending by the sort attribute
(adjacent sort keys are non-increasing under CPython string
comparison), with a stable tie-break: the records of any fixed
sort-key value appear in exactly their original file order.  In
particular, two events for the same entity with identical timestamps
appended in order A then B appear with A before B in the descending
result. -/
theorem C3_get_all_for_model_stable_descending :
    (∀ (content : List Record) (mid sb : String),
      (NDJSONStorage.get_all_for_model content mid sb).Perm
        (NDJSONStorage.filter_records content none
          [("model_id", JVal.str mid)]) ∧
      (NDJSONStorage.get_all_for_model content mid sb).Pairwise
        (fun a b =>
          NDJSONStorage.pyStrLe (NDJSONStorage.sortKey sb b)
            (NDJSONStorage.sortKey sb a) = true) ∧
      (∀ k : String,
        (NDJSONStorage.get_all_for_model content mid sb).filter
          (fun r => decide (NDJSONStorage.sortKey sb r = k)) =
        (NDJSONStorage.filter_records content none
          [("model_id", JVal.str mid)]).filter
          (fun r => decide (NDJSONStorage.sortKey sb r = k)))) ∧
    NDJSONStorage.get_all_for_model
      [[("model_id", JVal.str "m1"),
        ("timestamp", JVal.str "2024-01-01"), ("event", JVal.str "A")],
       [("model_id", JVal.str "m1"),
        ("timestamp", JVal.str "2024-01-01"), ("event", JVal.str "B")]]
      "m1" "timestamp" =
      [[("model_id", JVal.str "m1"),
        ("timestamp", JVal.str "2024-01-01"), ("event", JVal.str "A")],
       [("model_id", JVal.str "m1"),
        ("timestamp", JVal.str "2024-01-01"), ("event", JVal.str "B")]] := by
  refine ⟨fun content mid sb => ⟨?_, ?_, ?_⟩, by decide⟩
  · exact NDJSONStorage.sortDesc_perm _ _
  · exact NDJSONStorage.sortDesc_pairwise _ _
  · exact fun k => NDJSONStorage.sortDesc_filter _ _ k

/-- C8: in the result of a sorted per-entity retrieval, a record that
lacks the sort attribute gets the empty (lowest) comparison key, so
every record carrying a non-empty string sort value precedes every
record lacking the attribute: if position `i` of the result lacks the
attribute and position `j` carries a non-empty string value, then
`j < i`. -/
theorem C8_missing_sort_attribute_sorts_last :
    ∀ (content : List Record) (mid sb s : String) (i j : Nat)
      (out : List Record) (r q : Record),
      out = NDJSONStorage.get_all_for_model content mid sb →
      out.get? i = some r →
      out.get? j = some q →
      lookupAttr r sb = none →
      lookupAttr q sb = some (JVal.str s) →
      s ≠ "" →
      j < i := by
  intro content mid sb s i j out r q hout hi hj hr hq hs
  subst hout
  have hp : (NDJSONStorage.get_all_for_model content mid sb).Pairwise
      (fun a b =>
        NDJSONStorage.pyStrLe (NDJSONStorage.sortKey sb b)
          (NDJSONStorage.sortKey sb a) = true) :=
    NDJSONStorage.sortDesc_pairwise _ _
  have hkr : NDJSONStorage.sortKey sb r = "" := by
    rw [NDJSONStorage.sortKey, hr]
  have hkq : NDJSONStorage.sortKey sb q = s := by
    rw [NDJSONStorage.sortKey, hq]
  rcases List.get?_eq_some.mp hi with ⟨hi', hgi⟩
  rcases List.get?_eq_some.mp hj with ⟨hj', hgj⟩
  rcases lt_trichotomy i j with h | h | h
  · exfalso
    have hle := (List.pairwise_iff_get.mp hp) ⟨i, hi'⟩ ⟨j, hj'⟩ h
    rw [hgi, hgj, hkr, hkq] at hle
    exact hs (NDJSONStorage.pyStrLe_empty_right s hle)
  · exfalso
    subst h
    rw [hi] at hj
    have hrq : r = q := by injection hj
    rw [hrq, hq] at hr
    cases hr
  · exact h

/-- Witness for C8 at a concrete log: of two records for entity m1,
the one lacking the timestamp attribute lands at position 1 of the
retrieval, after the one carrying timestamp 2024. -/
theorem C8_missing_sort_attribute_sorts_last_witness :
    (NDJSONStorage.get_all_for_model
      [[("model_id", JVal.str "m1")],
       [("model_id", JVal.str "m1"), ("timestamp", JVal.str "2024")]]
      "m1" "timestamp").get? 1 = some [("model_id", JVal.str "m1")] ∧
    (0 : Nat) < 1 :=
  ⟨by decide,
   C8_missing_sort_attribute_sorts_last
    [[("model_id", JVal.str "m1")],
     [("model_id", JVal.str "m1"), ("timestamp", JVal.str "2024")]]
    "m1" "timestamp" "2024" 1 0 _
    [("model_id", JVal.str "m1")]
    [("model_id", JVal.str "m1"), ("timestamp", JVal.str "2024")]
    rfl (by decide) (by decide) (by decide) (by decide) (by decide)⟩

/-- C1 (divergence, evaluated at the failing input): deleting the only
record of a log rewrites the file through a single in-place
truncating write of the kept records, which is not the
temp-file-then-rename trace that `save_json` produces — the claimed
atomic discipline is absent from the bulk-deletion path. -/
theorem C1_delete_record_truncates_in_place :
    NDJSONStorage.delete_record [[("model_id", JVal.str "m1")]]
      [("model_id", JVal.str "m1")] =
      (1, [], [WriteOp.truncWrite []]) ∧
    JSONStorage.save_json ([] : List Record) =
      [WriteOp.tempWrite [], WriteOp.renameTempOverTarget] ∧
    [WriteOp.truncWrite ([] : List Record)] ≠
      [WriteOp.tempWrite [], WriteOp.renameTempOverTarget] := by
  refine ⟨by decide, rfl, by decide⟩

/-- C2 (counterexample): with a record of identifier m1 already in the
collection, `create` of a second record with the same identifier does
not fail with a conflict and does not leave the file unchanged: it
appends the duplicate and saves, yielding a two-element collection
and a write trace. -/
theorem C2_create_no_conflict_check_counterexample :
    JSONStorage.existsRecord [[("model_id", JVal.str "m1")]]
      "model_id" "m1" = true ∧
    JSONStorage.create [[("model_id", JVal.str "m1")]]
      [("model_id", JVal.str "m1"), ("v", JVal.num 2)] =
      ([[("model_id", JVal.str "m1")],
        [("model_id", JVal.str "m1"), ("v", JVal.num 2)]],
       [WriteOp.tempWrite
          [[("model_id", JVal.str "m1")],
           [("model_id", JVal.str "m1"), ("v", JVal.num 2)]],
        WriteOp.renameTempOverTarget]) := by
  refine ⟨by decide, by decide⟩

/-- C2 (amended): `create` performs no duplicate-identifier check:
for every collection and record — whether or not the identifier value
already occurs — it appends the record and saves atomically; in
particular, when the identifier value of the new record already
occurs in the collection, the saved collection holds at least two
records with that identifier value.  (The duplicate check lives in
the excluded route layer, which calls `exists` before `create`.) -/
theorem C2_create_appends_unconditionally :
    (∀ (data : List Record) (record : Record),
      JSONStorage.create data record =
        (data ++ [record],
         JSONStorage.save_json (data ++ [record]))) ∧
    (∀ (data : List Record) (record : Record) (f v : String),
      JSONStorage.existsRecord data f v = true →
      pyGet record f = JVal.str v →
      2 ≤ ((JSONStorage.create data record).1.filter
        (fun r => decide (pyGet r f = JVal.str v))).length) := by
  refine ⟨fun data record => rfl, ?_⟩
  intro data record f v hex hrec
  have hmem : ∃ r ∈ data, pyGet r f = JVal.str v := by
    rcases Option.isSome_iff_exists.mp hex with ⟨r, hr⟩
    have hm := List.find?_some hr
    exact ⟨r, List.mem_of_find?_eq_some hr, of_decide_eq_true hm⟩
  rcases hmem with ⟨r, hrm, hrf⟩
  have h1 : r ∈ data.filter (fun x => decide (pyGet x f = JVal.str v)) :=
    List.mem_filter.mpr ⟨hrm, by simpa using hrf⟩
  have hlen :
      1 ≤ (data.filter (fun x => decide (pyGet x f = JVal.str v))).length :=
    List.length_pos.mpr (List.ne_nil_of_mem h1)
  show 2 ≤ ((data ++ [record]).filter
    (fun x => decide (pyGet x f = JVal.str v))).length
  rw [List.filter_append, List.length_append,
    List.filter_cons_of_pos (by simpa using hrec)]
  simp only [List.filter_nil, List.length_cons, List.length_nil]
  omega

/-- Witness for the amended C2 at a concrete collection: an identifier
m1 already present, `create` of a second m1 record yields at least
two records with identifier m1. -/
theorem C2_create_appends_unconditionally_witness :
    JSONStorage.existsRecord [[("model_id", JVal.str "m1")]]
      "model_id" "m1" = true ∧
    2 ≤ ((JSONStorage.create [[("model_id", JVal.str "m1")]]
      [("model_id", JVal.str "m1")]).1.filter
      (fun r => decide (pyGet r "model_id" = JVal.str "m1"))).length :=
  ⟨by decide,
   C2_create_appends_unconditionally.2 [[("model_id", JVal.str "m1")]]
     [("model_id", JVal.str "m1")] "model_id" "m1"
     (by decide) (by decide)⟩

theorem filter_length_lt_iff_any (data : List Record)
    (p : Record → Bool) :
    (data.filter p).length < data.length ↔
      data.any (fun r => !(p r)) = true := by
  induction data with
  | nil => simp
  | cons x xs ih =>
    by_cases hx : p x
    · simp [List.filter_cons, hx, List.any_cons, Nat.succ_lt_succ_iff, ih]
    · have hle := List.length_filter_le p xs
      simp only [List.filter_cons, hx, Bool.false_eq_true, if_false,
        List.any_cons, Bool.not_false, Bool.true_or, List.length_cons,
        iff_true]
      omega

/-- C10: `delete_by_id` removes every record whose identifier field
equals the given value in a single call: the surviving collection is
exactly the filter of the non-matching records (so no survivor
matches), the returned flag is true exactly when some record matched,
and a save is issued exactly when the flag is true. -/
theorem C10_delete_by_id_removes_all_matches :
    ∀ (data : List Record) (f v : String),
      (JSONStorage.delete_by_id data f v).2.1 =
        data.filter (fun r => decide (pyGet r f ≠ JVal.str v)) ∧
      ((JSONStorage.delete_by_id data f v).2.1.all
        (fun r => decide (pyGet r f ≠ JVal.str v))) = true ∧
      (JSONStorage.delete_by_id data f v).1 =
        data.any (fun r => decide (pyGet r f = JVal.str v)) ∧
      (JSONStorage.delete_by_id data f v).2.2 =
        (if (JSONStorage.delete_by_id data f v).1 then
          JSONStorage.save_json ((JSONStorage.delete_by_id data f v).2.1)
        else []) := by
  intro data f v
  have hiff := filter_length_lt_iff_any data
    (fun r => decide (pyGet r f ≠ JVal.str v))
  have hany : (data.any fun r => !(decide (pyGet r f ≠ JVal.str v))) =
      (data.any fun r => decide (pyGet r f = JVal.str v)) := by
    simp [decide_not]
  rw [hany] at hiff
  by_cases h : (data.filter
      (fun r => decide (pyGet r f ≠ JVal.str v))).length < data.length
  · have hd : JSONStorage.delete_by_id data f v =
        (true, data.filter (fun r => decide (pyGet r f ≠ JVal.str v)),
         JSONStorage.save_json
           (data.filter (fun r => decide (pyGet r f ≠ JVal.str v)))) := by
      show (if (data.filter
          (fun r => decide (pyGet r f ≠ JVal.str v))).length < data.length
        then _ else _) = _
      rw [if_pos h]
    rw [hd]
    refine ⟨rfl, ?_, ?_, ?_⟩
    · simp only [List.all_eq_true]
      intro r hr
      exact (List.mem_filter.mp hr).2
    · exact (hiff.mp h).symm
    · simp
  · have hd : JSONStorage.delete_by_id data f v = (false, data, []) := by
      show (if (data.filter
          (fun r => decide (pyGet r f ≠ JVal.str v))).length < data.length
        then _ else _) = _
      rw [if_neg h]
    have heq : data.filter (fun r => decide (pyGet r f ≠ JVal.str v)) =
        data := by
      refine (List.filter_sublist data).eq_of_length ?_
      have hle := List.length_filter_le
        (fun r => decide (pyGet r f ≠ JVal.str v)) data
      omega
    rw [hd]
    refine ⟨heq.symm, ?_, ?_, ?_⟩
    · have hall := List.filter_eq_self.mp heq
      simpa [List.all_eq_true] using hall
    · rcases Bool.eq_false_or_eq_true
        (data.any fun r => decide (pyGet r f = JVal.str v)) with ht | hf
      · exact absurd (hiff.mpr ht) h
      · rw [hf]
    · simp


namespace JSONStorage

theorem lookupAttr_map_set_self (r : Record) (k : String) (v : JVal) :
    lookupAttr (r.map (fun p => if p.1 = k then (k, v) else p)) k =
      if (lookupAttr r k).isSome then some v else none := by
  induction r with
  | nil => rfl
  | cons p ps ih =>
    by_cases hp : p.1 = k
    · simp [lookupAttr, hp]
    · simp [lookupAttr, hp, ih]

theorem lookupAttr_map_set_ne (r : Record) (k k' : String) (v : JVal)
    (hk : ¬ k' = k) :
    lookupAttr (r.map (fun p => if p.1 = k then (k, v) else p)) k' =
      lookupAttr r k' := by
  induction r with
  | nil => rfl
  | cons p ps ih =>
    by_cases hp : p.1 = k
    · have hkp : ¬ (k : String) = k' := fun h => hk h.symm
      have hpk : ¬ p.1 = k' := by
        rw [hp]
        exact hkp
      simp [lookupAttr, hp, hkp, hpk, ih]
    · by_cases hpq : p.1 = k'
      · simp only [List.map_cons, lookupAttr]
        rw [if_neg hp, if_pos hpq, if_pos hpq]
      · simp only [List.map_cons, lookupAttr]
        rw [if_neg hp, if_neg hpq, if_neg hpq, ih]

theorem lookupAttr_append_of_none (r1 r2 : Record) (k : String)
    (h : lookupAttr r1 k = none) :
    lookupAttr (r1 ++ r2) k = lookupAttr r2 k := by
  induction r1 with
  | nil => rfl
  | cons p ps ih =>
    by_cases hp : p.1 = k
    · rw [lookupAttr, if_pos hp] at h
      cases h
    · rw [lookupAttr, if_neg hp] at h
      rw [List.cons_append, lookupAttr, if_neg hp, ih h]

theorem lookupAttr_append_of_some (r1 r2 : Record) (k : String)
    (v : JVal) (h : lookupAttr r1 k = some v) :
    lookupAttr (r1 ++ r2) k = some v := by
  induction r1 with
  | nil => cases h
  | cons p ps ih =>
    by_cases hp : p.1 = k
    · rw [lookupAttr, if_pos hp] at h
      rw [List.cons_append, lookupAttr, if_pos hp]
      exact h
    · rw [lookupAttr, if_neg hp] at h
      rw [List.cons_append, lookupAttr, if_neg hp, ih h]

theorem setAttr_lookup_self (r : Record) (k : String) (v : JVal) :
    lookupAttr (setAttr r k v) k = some v := by
  rw [setAttr]
  by_cases hs : (lookupAttr r k).isSome
  · rw [if_pos hs, lookupAttr_map_set_self, if_pos hs]
  · rw [if_neg hs]
    have hn : lookupAttr r k = none := by
      rcases h : lookupAttr r k with _ | w
      · rfl
      · rw [h] at hs
        simp at hs
    rw [lookupAttr_append_of_none r _ k hn]
    simp [lookupAttr]

theorem setAttr_lookup_ne (r : Record) (k k' : String) (v : JVal)
    (hk : ¬ k' = k) :
    lookupAttr (setAttr r k v) k' = lookupAttr r k' := by
  rw [setAttr]
  by_cases hs : (lookupAttr r k).isSome
  · rw [if_pos hs, lookupAttr_map_set_ne r k k' v hk]
  · rw [if_neg hs]
    rcases h : lookupAttr r k' with _ | w
    · rw [lookupAttr_append_of_none r _ k' h]
      have hkk : ¬ (k : String) = k' := fun hh => hk hh.symm
      simp [lookupAttr, hkk]
    · exact lookupAttr_append_of_some r _ k' w h

theorem dictUpdate_nil (r : Record) : dictUpdate r [] = r :=
  rfl

theorem dictUpdate_cons (r : Record) (p : String × JVal)
    (rest : Record) :
    dictUpdate r (p :: rest) = dictUpdate (setAttr r p.1 p.2) rest :=
  rfl

theorem dictUpdate_lookup_of_not_key (r updates : Record) (k : String)
    (h : (updates.all fun p => !(decide (p.1 = k))) = true) :
    lookupAttr (dictUpdate r updates) k = lookupAttr r k := by
  induction updates generalizing r with
  | nil => rfl
  | cons p rest ih =>
    rw [List.all_cons, Bool.and_eq_true] at h
    obtain ⟨hp, hrest⟩ := h
    have hp' : ¬ (k : String) = p.1 := by
      intro hkp
      rw [← hkp] at hp
      simp at hp
    rw [dictUpdate_cons, ih _ hrest, setAttr_lookup_ne _ _ _ _ hp']

theorem dictUpdate_lookup_of_key (r updates : Record) (k : String)
    (v : JVal) (hv : lookupAttr updates k = some v)
    (hnd : (updates.map Prod.fst).Nodup) :
    lookupAttr (dictUpdate r updates) k = some v := by
  induction updates generalizing r with
  | nil => cases hv
  | cons p rest ih =>
    rw [List.map_cons, List.nodup_cons] at hnd
    obtain ⟨hp, hrest⟩ := hnd
    by_cases hpk : p.1 = k
    · have hv' : v = p.2 := by
        rw [lookupAttr, if_pos hpk] at hv
        exact (Option.some.inj hv).symm
      have hnk : (rest.all fun q => !(decide (q.1 = k))) = true := by
        simp only [List.all_eq_true, Bool.not_eq_true',
          decide_eq_false_iff_not]
        intro q hq hqk
        exact hp (List.mem_map.mpr ⟨q, hq, by rw [hqk, ← hpk]⟩)
      rw [dictUpdate_cons, dictUpdate_lookup_of_not_key _ _ _ hnk, hv',
        ← hpk, setAttr_lookup_self]
    · have hv' : lookupAttr rest k = some v := by
        rw [lookupAttr, if_neg hpk] at hv
        exact hv
      rw [dictUpdate_cons, ih _ hv' hrest]

theorem updateFirst_eq_none (f v : String) (u : Record)
    (data : List Record)
    (h : (data.all fun x => !(decide (pyGet x f = JVal.str v))) = true) :
    updateFirst f v u data = none := by
  induction data with
  | nil => rfl
  | cons r rest ih =>
    rw [List.all_cons, Bool.and_eq_true] at h
    obtain ⟨hr, hrest⟩ := h
    have hr' : ¬ pyGet r f = JVal.str v := by
      simpa using hr
    rw [updateFirst, if_neg hr', ih hrest]
    rfl

theorem updateFirst_append (f v : String) (u : Record)
    (pre : List Record) (r : Record) (post : List Record)
    (hpre : (pre.all fun x => !(decide (pyGet x f = JVal.str v))) = true)
    (hr : pyGet r f = JVal.str v) :
    updateFirst f v u (pre ++ r :: post) =
      some (pre ++ dictUpdate r u :: post) := by
  induction pre with
  | nil =>
    rw [List.nil_append, updateFirst, if_pos hr]
    rfl
  | cons x xs ih =>
    rw [List.all_cons, Bool.and_eq_true] at hpre
    obtain ⟨hx, hxs⟩ := hpre
    have hx' : ¬ pyGet x f = JVal.str v := by
      simpa using hx
    rw [List.cons_append, updateFirst, if_neg hx', ih hxs]
    rfl

end JSONStorage

/-- C7 (counterexample): with an empty update payload and a matching
record, `update_by_id` does not fail with a no-op: it reports
success and rewrites the file (a temp-write and a rename occur, with
unchanged contents). -/
theorem C7_update_by_id_empty_payload_counterexample :
    JSONStorage.update_by_id [[("model_id", JVal.str "m1")]]
      "model_id" "m1" [] =
      (true, [[("model_id", JVal.str "m1")]],
       [WriteOp.tempWrite [[("model_id", JVal.str "m1")]],
        WriteOp.renameTempOverTarget]) := by
  decide

/-- C7 (amended): `update_by_id` merges only the listed attributes
into the first matching record — when no record matches it returns
false and writes nothing; when one matches it replaces exactly that
record by the merge and saves; the merge leaves unlisted attributes
untouched and sets listed ones; with an empty payload the merge is
the identity, so the call still succeeds and rewrites the file with
unchanged contents (there is no no-op failure). -/
theorem C7_update_by_id_merges_only_listed_attributes :
    (∀ (data : List Record) (f v : String) (updates : Record),
      (data.all fun x => !(decide (pyGet x f = JVal.str v))) = true →
      JSONStorage.update_by_id data f v updates = (false, data, [])) ∧
    (∀ (pre : List Record) (r : Record) (post : List Record)
       (f v : String) (updates : Record),
      (pre.all fun x => !(decide (pyGet x f = JVal.str v))) = true →
      pyGet r f = JVal.str v →
      JSONStorage.update_by_id (pre ++ r :: post) f v updates =
        (true, pre ++ JSONStorage.dictUpdate r updates :: post,
         JSONStorage.save_json
           (pre ++ JSONStorage.dictUpdate r updates :: post))) ∧
    (∀ (r updates : Record) (k : String),
      (updates.all fun p => !(decide (p.1 = k))) = true →
      lookupAttr (JSONStorage.dictUpdate r updates) k = lookupAttr r k) ∧
    (∀ (r updates : Record) (k : String) (v : JVal),
      lookupAttr updates k = some v →
      (updates.map Prod.fst).Nodup →
      lookupAttr (JSONStorage.dictUpdate r updates) k = some v) ∧
    (∀ r : Record, JSONStorage.dictUpdate r [] = r) := by
  refine ⟨?_, ?_, ?_, ?_, fun r => rfl⟩
  · intro data f v updates h
    rw [JSONStorage.update_by_id,
      JSONStorage.updateFirst_eq_none f v updates data h]
  · intro pre r post f v updates hpre hr
    rw [JSONStorage.update_by_id,
      JSONStorage.updateFirst_append f v updates pre r post hpre hr]
  · exact fun r updates k h =>
      JSONStorage.dictUpdate_lookup_of_not_key r updates k h
  · exact fun r updates k v hv hnd =>
      JSONStorage.dictUpdate_lookup_of_key r updates k v hv hnd

/-- Witness for the amended C7 at a concrete collection: updating the
name attribute of record m1 changes exactly that attribute and saves
the merged collection. -/
theorem C7_update_by_id_merges_only_listed_attributes_witness :
    pyGet [("model_id", JVal.str "m1"), ("name", JVal.str "old")]
      "model_id" = JVal.str "m1" ∧
    JSONStorage.update_by_id
      [[("model_id", JVal.str "m1"), ("name", JVal.str "old")]]
      "model_id" "m1" [("name", JVal.str "new")] =
      (true, [[("model_id", JVal.str "m1"), ("name", JVal.str "new")]],
       JSONStorage.save_json
         [[("model_id", JVal.str "m1"), ("name", JVal.str "new")]]) :=
  ⟨by decide,
   C7_update_by_id_merges_only_listed_attributes.2.1 []
     [("model_id", JVal.str "m1"), ("name", JVal.str "old")] []
     "model_id" "m1" [("name", JVal.str "new")] rfl (by decide)⟩

/- The Batteries rational arithmetic operations are irreducible by
default; re-enable unfolding so that closed scorer computations can be
settled by kernel reduction. -/
attribute [local semireducible] Rat.add Rat.sub Rat.mul Rat.inv
  Rat.ofScientific

/-- C4: the risk level is assigned by lower-bound-inclusive cutoffs on
the weighted total: at least 80 is critical, at least 60 and below 80
is high, at least 30 and below 60 is medium, below 30 is low; in
particular exactly 80.00 is critical, 79.99 is high, exactly 60.00 is
high, and exactly 30.00 is medium. -/
theorem C4_risk_level_cutoffs :
    (∀ t : ℚ, 80 ≤ t →
      RiskScoringService.riskLevelOf t = RiskLevel.critical) ∧
    (∀ t : ℚ, 60 ≤ t → t < 80 →
      RiskScoringService.riskLevelOf t = RiskLevel.high) ∧
    (∀ t : ℚ, 30 ≤ t → t < 60 →
      RiskScoringService.riskLevelOf t = RiskLevel.medium) ∧
    (∀ t : ℚ, t < 30 → RiskScoringService.riskLevelOf t = RiskLevel.low) ∧
    RiskScoringService.riskLevelOf 80 = RiskLevel.critical ∧
    RiskScoringService.riskLevelOf (79.99 : ℚ) = RiskLevel.high ∧
    RiskScoringService.riskLevelOf 60 = RiskLevel.high ∧
    RiskScoringService.riskLevelOf 30 = RiskLevel.medium := by
  refine ⟨?_, ?_, ?_, ?_, ?_, ?_, ?_, ?_⟩
  · intro t h
    rw [RiskScoringService.riskLevelOf, if_pos h]
  · intro t h60 h80
    rw [RiskScoringService.riskLevelOf, if_neg (not_le.mpr h80),
      if_pos h60]
  · intro t h30 h60
    rw [RiskScoringService.riskLevelOf,
      if_neg (not_le.mpr (lt_of_lt_of_le h60 (by norm_num))),
      if_neg (not_le.mpr h60), if_pos h30]
  · intro t h30
    rw [RiskScoringService.riskLevelOf,
      if_neg (not_le.mpr (lt_of_lt_of_le h30 (by norm_num))),
      if_neg (not_le.mpr (lt_of_lt_of_le h30 (by norm_num))),
      if_neg (not_le.mpr h30)]
  · rw [RiskScoringService.riskLevelOf, if_pos (by norm_num)]
  · rw [RiskScoringService.riskLevelOf, if_neg (by norm_num),
      if_pos (by norm_num)]
  · rw [RiskScoringService.riskLevelOf, if_neg (by norm_num),
      if_pos (by norm_num)]
  · rw [RiskScoringService.riskLevelOf, if_neg (by norm_num),
      if_neg (by norm_num), if_pos (by norm_num)]

/-- Witness for C4 inside each band: 85 is critical, 65 is high, 45 is
medium, 10 is low. -/
theorem C4_risk_level_cutoffs_witness :
    RiskScoringService.riskLevelOf 85 = RiskLevel.critical ∧
    RiskScoringService.riskLevelOf 65 = RiskLevel.high ∧
    RiskScoringService.riskLevelOf 45 = RiskLevel.medium ∧
    RiskScoringService.riskLevelOf 10 = RiskLevel.low :=
  ⟨C4_risk_level_cutoffs.1 85 (by norm_num),
   C4_risk_level_cutoffs.2.1 65 (by norm_num) (by norm_num),
   C4_risk_level_cutoffs.2.2.1 45 (by norm_num) (by norm_num),
   C4_risk_level_cutoffs.2.2.2.1 10 (by norm_num)⟩

/-- C5: for a model with no evaluation history, deployment dev, 2
jurisdictions, use case Marketing and 1 external data source, the
component scores are bias 30, controls 60, explainability 40, drift
20, operational 0, the weighted total is exactly 37.00, and the level
is medium. -/
theorem C5_risk_score_deterministic_example :
    RiskScoringService._calculate_bias_score [] = 30 ∧
    RiskScoringService._calculate_control_score [] = 60 ∧
    RiskScoringService._calculate_explainability_score [] = 40 ∧
    RiskScoringService._calculate_drift_score [] = 20 ∧
    RiskScoringService._calculate_operational_score
      [("model_id", JVal.str "m1"),
       ("deployment_environment", JVal.str "dev"),
       ("jurisdictions", JVal.arr ["CA", "NY"]),
       ("use_case_category", JVal.str "Marketing"),
       ("line_of_business", JVal.str "Auto"),
       ("external_data_sources", JVal.arr ["x"])] = 0 ∧
    ((RiskScoringService.calculate_risk_score
      { models := [[("model_id", JVal.str "m1"),
          ("deployment_environment", JVal.str "dev"),
          ("jurisdictions", JVal.arr ["CA", "NY"]),
          ("use_case_category", JVal.str "Marketing"),
          ("line_of_business", JVal.str "Auto"),
          ("external_data_sources", JVal.arr ["x"])]],
        control_evaluations := [], bias := [], explainability := [],
        drift := [] }
      "m1" "t").1.map RiskAssessment.risk_score) = some 37 ∧
    ((RiskScoringService.calculate_risk_score
      { models := [[("model_id", JVal.str "m1"),
          ("deployment_environment", JVal.str "dev"),
          ("jurisdictions", JVal.arr ["CA", "NY"]),
          ("use_case_category", JVal.str "Marketing"),
          ("line_of_business", JVal.str "Auto"),
          ("external_data_sources", JVal.arr ["x"])]],
        control_evaluations := [], bias := [], explainability := [],
        drift := [] }
      "m1" "t").1.map RiskAssessment.risk_level) = some RiskLevel.medium := by
  refine ⟨by decide, by decide, by decide, by decide, by decide,
    by decide, by decide⟩

/-- C6 (counterexample): the explainability component has no clamping:
a stored explainability score of 150 yields component score minus 50,
outside the claimed interval. -/
theorem C6_explainability_unclamped_counterexample :
    RiskScoringService._calculate_explainability_score
      [[("model_id", JVal.str "m1"),
        ("explainability_score", JVal.num 150)]] = -50 ∧
    ((-50 : ℚ) < 0) := by
  refine ⟨by decide, by norm_num⟩

/-- C6 (amended): the bias, controls, drift and operational component
scores lie in the interval 0 to 100 for every state of the inputs;
the explainability component equals 40 when no data or no score is
present, and equals 100 minus the latest stored score, which lies in
0 to 100 exactly when the stored score does (as the boundary-layer
validation guarantees for data written through the API); no clamping
is applied. -/
theorem C6_component_scores_bounded :
    (∀ evals, 0 ≤ RiskScoringService._calculate_bias_score evals ∧
      RiskScoringService._calculate_bias_score evals ≤ 100) ∧
    (∀ evals, 0 ≤ RiskScoringService._calculate_control_score evals ∧
      RiskScoringService._calculate_control_score evals ≤ 100) ∧
    (∀ evals, 0 ≤ RiskScoringService._calculate_drift_score evals ∧
      RiskScoringService._calculate_drift_score evals ≤ 100) ∧
    (∀ model, 0 ≤ RiskScoringService._calculate_operational_score model ∧
      RiskScoringService._calculate_operational_score model ≤ 100) ∧
    RiskScoringService._calculate_explainability_score [] = 40 ∧
    (∀ (latest : Record) (rest : List Record) (q : ℚ),
      lookupAttr latest "explainability_score" = some (JVal.num q) →
      0 ≤ q → q ≤ 100 →
      0 ≤ RiskScoringService._calculate_explainability_score
        (latest :: rest) ∧
      RiskScoringService._calculate_explainability_score
        (latest :: rest) ≤ 100) := by
  refine ⟨?_, ?_, ?_, ?_, rfl, ?_⟩
  · intro evals
    cases evals with
    | nil => norm_num [RiskScoringService._calculate_bias_score]
    | cons latest rest =>
      simp only [RiskScoringService._calculate_bias_score]
      split_ifs <;> norm_num
  · intro evals
    simp only [RiskScoringService._calculate_control_score]
    split_ifs with h1 h2
    · norm_num
    · refine ⟨le_min (by norm_num) ?_, min_le_left _ _⟩
      positivity
    · refine ⟨le_min (by norm_num) (by norm_num), min_le_left _ _⟩
  · intro evals
    simp only [RiskScoringService._calculate_drift_score]
    split_ifs with h1 h2
    · norm_num
    · refine ⟨le_min (by norm_num) ?_, min_le_left _ _⟩
      positivity
    · norm_num
  · intro model
    simp only [RiskScoringService._calculate_operational_score]
    split_ifs <;>
      exact ⟨le_min (by norm_num) (by norm_num), min_le_left _ _⟩
  · intro latest rest q h h0 h100
    have hval : RiskScoringService._calculate_explainability_score
        (latest :: rest) = 100 - q := by
      simp only [RiskScoringService._calculate_explainability_score, h,
        numVal]
    rw [hval]
    constructor <;> linarith

/-- Witness for the amended C6: a stored explainability score of 70
keeps the component at 30, inside the interval. -/
theorem C6_component_scores_bounded_witness :
    lookupAttr [("explainability_score", JVal.num 70)]
      "explainability_score" = some (JVal.num 70) ∧
    (0 ≤ RiskScoringService._calculate_explainability_score
      [[("explainability_score", JVal.num 70)]] ∧
     RiskScoringService._calculate_explainability_score
      [[("explainability_score", JVal.num 70)]] ≤ 100) :=
  ⟨by decide,
   C6_component_scores_bounded.2.2.2.2.2
     [("explainability_score", JVal.num 70)] [] 70
     (by decide) (by norm_num) (by norm_num)⟩

/-- C9: the risk scorer reads and never writes: for every data
directory and model id, replaying the storage operations performed by
`calculate_risk_score` leaves the data directory exactly as it was,
and every operation in its trace is a read; the computed assessment
is only returned, never persisted by the scorer. -/
theorem C9_calculate_risk_score_reads_only :
    ∀ (d : DataDir) (model_id now : String),
      applyOps d
        (RiskScoringService.calculate_risk_score d model_id now).2 = d ∧
      ((RiskScoringService.calculate_risk_score d model_id now).2.all
        StoreOp.isRead) = true := by
  intro d mid now
  cases h : JSONStorage.find_by_id d.models "model_id" mid with
  | none =>
    simp only [RiskScoringService.calculate_risk_score, h]
    exact ⟨rfl, rfl⟩
  | some model =>
    simp only [RiskScoringService.calculate_risk_score, h]
    exact ⟨rfl, rfl⟩
